import Mathlib

/-!
Verification of the closed-loop position-correction core of the FEH robot
program (`main.cpp`).  The motor/encoder/oracle hardware is modelled by
event traces and read streams; all numeric quantities are rationals.

Conventions of the embedding:
* every `SetPercent` / `Stop` / `ResetCounts` / `Sleep` call becomes one
  event in a `List Ev`;
* the external positioning oracle (`RPS.Heading()`, `RPS.X()`, `RPS.Y()`)
  is a stream `ℕ → ℚ`; following the specification's per-iteration fresh
  read, each loop iteration `i` reads the stream at index `i`;
* encoder hardware is a stream `ℕ → ℕ × ℕ` of `(left, right)` counts per
  polling tick (counts restart from the stream's tick 0 at each reset);
* the C++ `while` loops become fuel-indexed recursions returning
  `Option`: `none` means the loop did not finish within the given fuel.
-/

namespace FehRobot

/-! ### Configuration constants, from the `#define` block of `main.cpp` -/

/-- Length of the front/back side of the robot in inches (`ROBOT_WIDTH`). -/
def ROBOT_WIDTH : ℚ := 795 / 100

/-- The literal `3.14159265` used by the source (`PI`). -/
def PI : ℚ := 314159265 / 100000000

/-- Encoder counts per inch:
`318 / (2 * 3.14159265 * 1.25)` (`COUNT_PER_INCH`). -/
def COUNT_PER_INCH : ℚ := 318 / (2 * PI * (125 / 100))

/-- Percent added to backward-driving motors (`BACKWARDS_CALIBRATOR`). -/
def BACKWARDS_CALIBRATOR : ℚ := 24 / 10

/-- Delay before re-checking the oracle (`RPS_DELAY_TIME`). -/
def RPS_DELAY_TIME : ℚ := 35 / 100

/-- Pulse percent for heading correction (`RPS_TURN_PULSE_PERCENT`). -/
def RPS_TURN_PULSE_PERCENT : ℚ := 20

/-- Pulse duration for heading correction (`RPS_TURN_PULSE_TIME`). -/
def RPS_TURN_PULSE_TIME : ℚ := 5 / 100

/-- Convergence threshold in degrees (`RPS_TURN_THRESHOLD`). -/
def RPS_TURN_THRESHOLD : ℚ := 1 / 2

/-- Pulse percent for translational correction
(`RPS_TRANSLATIONAL_PULSE_PERCENT`). -/
def RPS_TRANSLATIONAL_PULSE_PERCENT : ℚ := 20

/-- Pulse duration for translational correction
(`RPS_TRANSLATIONAL_PULSE_TIME`). -/
def RPS_TRANSLATIONAL_PULSE_TIME : ℚ := 1 / 10

/-- Convergence threshold in coordinate units
(`RPS_TRANSLATIONAL_THRESHOLD`). -/
def RPS_TRANSLATIONAL_THRESHOLD : ℚ := 1 / 10

/-! ### Hardware events -/

/-- One hardware call issued by the core: a `SetPercent`, `Stop` or
`ResetCounts` on the left or right motor/encoder, or a `Sleep`. -/
inductive Ev where
  | setR (p : ℚ)
  | setL (p : ℚ)
  | stopR
  | stopL
  | resetR
  | resetL
  | sleepE (t : ℚ)
deriving DecidableEq, Repr

/-! ### Heading difference and direction (`RPS_correct_heading`) -/

/-- The wrap-around difference computation of `RPS_correct_heading`
(`main.cpp:680-686`, textually repeated at `main.cpp:741-747`): the same
three-branch expression is evaluated before the loop and again at the end
of every loop body, so a single definition embeds both sites. -/
def headingDiff (heading h : ℚ) : ℚ :=
  if heading - h > 180 then |heading - (h + 360)|
  else if h - heading > 180 then |(heading + 360) - h|
  else |(heading + 360) - (h + 360)|

/-- The direction choice of `RPS_correct_heading` (`main.cpp:696-704`):
`1` pulses counter-clockwise (heading-increasing), `-1` clockwise.  The
raw comparison picks the sign of `heading - h`, then the choice is
inverted when `|h - heading| > 180`. -/
def headingDirection (heading h : ℚ) : ℤ :=
  let d : ℤ := if h < heading then 1 else -1
  if |h - heading| > 180 then -d else d

/-- The counter-clockwise pulse of `RPS_correct_heading`
(`main.cpp:707-719`): right motor forward, left motor backward with the
backward calibrator, sleep, stop both. -/
def turnPulseCCW : List Ev :=
  [Ev.setR RPS_TURN_PULSE_PERCENT,
   Ev.setL (-RPS_TURN_PULSE_PERCENT - BACKWARDS_CALIBRATOR),
   Ev.sleepE RPS_TURN_PULSE_TIME, Ev.stopR, Ev.stopL]

/-- The clockwise pulse of `RPS_correct_heading` (`main.cpp:721-734`). -/
def turnPulseCW : List Ev :=
  [Ev.setR (-RPS_TURN_PULSE_PERCENT - BACKWARDS_CALIBRATOR),
   Ev.setL RPS_TURN_PULSE_PERCENT,
   Ev.sleepE RPS_TURN_PULSE_TIME, Ev.stopR, Ev.stopL]

/-- The correction loop of `RPS_correct_heading` (`main.cpp:693-750`).
Iteration `i` reads the oracle heading `rps i`; the loop continues while
the reading is available (`≥ 0`) and the wrap-around difference exceeds
the threshold, pulsing in the chosen direction and sleeping the delay
before re-sampling.  `none` means the fuel ran out (the C++ loop is still
running). -/
def correctHeadingLoop (heading : ℚ) (rps : ℕ → ℚ) :
    ℕ → ℕ → Option (List Ev)
  | 0, _ => none
  | fuel + 1, i =>
    if 0 ≤ rps i ∧ RPS_TURN_THRESHOLD < headingDiff heading (rps i) then
      (correctHeadingLoop heading rps fuel (i + 1)).map fun rest =>
        (if headingDirection heading (rps i) = 1 then turnPulseCCW
         else turnPulseCW) ++ Ev.sleepE RPS_DELAY_TIME :: rest
    else some []

/-- `RPS_correct_heading` (`main.cpp:670-751`): computes the initial
difference from reading 0 and runs the correction loop; issues no motor
events outside the loop body. -/
def RPS_correct_heading (heading : ℚ) (rps : ℕ → ℚ) (fuel : ℕ) :
    Option (List Ev) :=
  correctHeadingLoop heading rps fuel 0

/-! ### Dead-reckoning moves -/

/-- `(left_encoder.Counts() + right_encoder.Counts()) / 2.` at polling
tick `n`: the float division by `2.` of the busy-wait conditions. -/
def avgCounts (enc : ℕ → ℕ × ℕ) (n : ℕ) : ℚ :=
  (((enc n).1 : ℚ) + ((enc n).2 : ℚ)) / 2

/-- The busy-wait `while (avg < expectedCounts);` of the dead-reckoning
moves: returns the first polling tick (from `i` on) whose averaged count
reaches `target`, or `none` if the fuel runs out first. -/
def pollFirst (target : ℚ) (enc : ℕ → ℕ × ℕ) : ℕ → ℕ → Option ℕ
  | 0, _ => none
  | fuel + 1, i =>
    if avgCounts enc i < target then pollFirst target enc fuel (i + 1)
    else some i

/-- `move_forward_inches` (`main.cpp:511-548`): expected counts are
`COUNT_PER_INCH * inches`; both encoders are reset, both motors are set
to `percent`, and after the busy-wait both motors are stopped.  Returns
the event trace together with the polling tick at which the stop was
issued. -/
def move_forward_inches (percent : ℤ) (inches : ℚ) (enc : ℕ → ℕ × ℕ)
    (fuel : ℕ) : Option (List Ev × ℕ) :=
  (pollFirst (COUNT_PER_INCH * inches) enc fuel 0).map fun k =>
    ([Ev.resetR, Ev.resetL, Ev.setR (percent : ℚ),
      Ev.setL (percent : ℚ), Ev.stopR, Ev.stopL], k)

/-- `move_forward_seconds` (`main.cpp:556-571`): a negative percent first
has `BACKWARDS_CALIBRATOR` subtracted, then both motors are set to the
resulting value, the call sleeps `seconds`, and both motors stop. -/
def move_forward_seconds (percent seconds : ℚ) : List Ev :=
  let p := if percent < 0 then percent - BACKWARDS_CALIBRATOR else percent
  [Ev.setR p, Ev.setL p, Ev.sleepE seconds, Ev.stopR, Ev.stopL]

/-- Expected encoder counts of the rotations (`main.cpp:582` and
`main.cpp:628`): `COUNT_PER_INCH * ((degrees * PI) / 180.0) * (ROBOT_WIDTH / 2)`. -/
def turnExpectedCounts (degrees : ℚ) : ℚ :=
  COUNT_PER_INCH * ((degrees * PI) / 180) * (ROBOT_WIDTH / 2)

/-- `turn_right_degrees` (`main.cpp:579-617`): right motor gets
`-percent - BACKWARDS_CALIBRATOR`, left motor `percent`; same busy-wait
as `move_forward_inches` against `turnExpectedCounts`. -/
def turn_right_degrees (percent : ℤ) (degrees : ℚ) (enc : ℕ → ℕ × ℕ)
    (fuel : ℕ) : Option (List Ev × ℕ) :=
  (pollFirst (turnExpectedCounts degrees) enc fuel 0).map fun k =>
    ([Ev.resetR, Ev.resetL,
      Ev.setR (-(percent : ℚ) - BACKWARDS_CALIBRATOR),
      Ev.setL (percent : ℚ), Ev.stopR, Ev.stopL], k)

/-- `turn_left_degrees` (`main.cpp:625-663`): mirror image of
`turn_right_degrees` (right motor `percent`, left motor
`-percent - BACKWARDS_CALIBRATOR`). -/
def turn_left_degrees (percent : ℤ) (degrees : ℚ) (enc : ℕ → ℕ × ℕ)
    (fuel : ℕ) : Option (List Ev × ℕ) :=
  (pollFirst (turnExpectedCounts degrees) enc fuel 0).map fun k =>
    ([Ev.resetR, Ev.resetL, Ev.setR (percent : ℚ),
      Ev.setL (-(percent : ℚ) - BACKWARDS_CALIBRATOR),
      Ev.stopR, Ev.stopL], k)

/-! ### Translational correction (`RPS_check_x` / `RPS_check_y`) -/

/-- The translational correction loop, the common body of
`RPS_check_x` (`main.cpp:791-806`) and `RPS_check_y`
(`main.cpp:854-869`), with `rps` the stream of `RPS.X()` (resp.
`RPS.Y()`) readings and `coord` the target coordinate.  The loop
continues while the reading is strictly positive and the absolute error
exceeds the threshold; each iteration pulses via `move_forward_seconds`
away from or toward the target and sleeps the delay. -/
def checkAxisLoop (coord power : ℚ) (rps : ℕ → ℚ) :
    ℕ → ℕ → Option (List Ev)
  | 0, _ => none
  | fuel + 1, i =>
    if 0 < rps i ∧ RPS_TRANSLATIONAL_THRESHOLD < |rps i - coord| then
      (checkAxisLoop coord power rps fuel (i + 1)).map fun rest =>
        (if coord < rps i then
          move_forward_seconds (-power) RPS_TRANSLATIONAL_PULSE_TIME
         else if rps i < coord then
          move_forward_seconds power RPS_TRANSLATIONAL_PULSE_TIME
         else []) ++ Ev.sleepE RPS_DELAY_TIME :: rest
    else some []

/-- `RPS_check_x` (`main.cpp:759-814`): reads the orientation
(`rpsH 0`); if it is available, snaps the heading to 0° (east) when
`orientation ≤ 90 ∨ 270 ≤ orientation`, else to 180° (west), choosing
the pulse power sign accordingly, then runs the translational loop on
the `RPS.X()` stream.  The nested `RPS_correct_heading` consumes heading
readings from index 1 on. -/
def RPS_check_x (x_coord : ℚ) (rpsH rpsX : ℕ → ℚ) (fuel : ℕ) :
    Option (List Ev) :=
  if 0 ≤ rpsH 0 then
    (RPS_correct_heading (if rpsH 0 ≤ 90 ∨ 270 ≤ rpsH 0 then 0 else 180)
        (fun i => rpsH (i + 1)) fuel).bind fun hEvents =>
      (checkAxisLoop x_coord
          (if rpsH 0 ≤ 90 ∨ 270 ≤ rpsH 0 then RPS_TRANSLATIONAL_PULSE_PERCENT
           else -RPS_TRANSLATIONAL_PULSE_PERCENT) rpsX fuel 0).map
        fun xEvents => hEvents ++ xEvents
  else some []

/-- `RPS_check_y` (`main.cpp:822-877`): like `RPS_check_x` but snaps to
90° (north) when `0 ≤ orientation ≤ 180`, else to 270° (south), and runs
the loop on the `RPS.Y()` stream. -/
def RPS_check_y (y_coord : ℚ) (rpsH rpsY : ℕ → ℚ) (fuel : ℕ) :
    Option (List Ev) :=
  if 0 ≤ rpsH 0 then
    (RPS_correct_heading (if 0 ≤ rpsH 0 ∧ rpsH 0 ≤ 180 then 90 else 270)
        (fun i => rpsH (i + 1)) fuel).bind fun hEvents =>
      (checkAxisLoop y_coord
          (if 0 ≤ rpsH 0 ∧ rpsH 0 ≤ 180 then RPS_TRANSLATIONAL_PULSE_PERCENT
           else -RPS_TRANSLATIONAL_PULSE_PERCENT) rpsY fuel 0).map
        fun yEvents => hEvents ++ yEvents
  else some []

/-! ### Motor-stop discipline (for the single-live-command invariant) -/

/-- Scans a trace keeping the current commanded power of each motor
(`l`, `r`; `0` = stopped) and checks that a motor is always stopped at
the moment it receives a new `SetPercent`, and that both motors are
stopped when the trace ends. -/
def disciplineAux : ℚ → ℚ → List Ev → Bool
  | l, r, [] => decide (l = 0) && decide (r = 0)
  | l, r, Ev.setL p :: t => decide (l = 0) && disciplineAux p r t
  | l, r, Ev.setR p :: t => decide (r = 0) && disciplineAux l p t
  | _, r, Ev.stopL :: t => disciplineAux 0 r t
  | l, _, Ev.stopR :: t => disciplineAux l 0 t
  | l, r, Ev.resetL :: t => disciplineAux l r t
  | l, r, Ev.resetR :: t => disciplineAux l r t
  | l, r, Ev.sleepE _ :: t => disciplineAux l r t

/-- A trace respects the one-live-motion-command discipline: starting
from both motors stopped, every `SetPercent` hits a stopped motor and
the trace leaves both motors stopped. -/
def stopDiscipline (t : List Ev) : Bool :=
  disciplineAux 0 0 t

/-! ### Mathematical arc lengths (for stating direction optimality) -/

/-- Arc swept rotating counter-clockwise (heading increasing) from `h`
to `target` on the 360° circle. -/
def ccwArc (h target : ℚ) : ℚ :=
  if h ≤ target then target - h else target - h + 360

/-- Arc swept rotating clockwise (heading decreasing) from `h` to
`target` on the 360° circle. -/
def cwArc (h target : ℚ) : ℚ :=
  if target ≤ h then h - target else h - target + 360

/-- A concrete heading-oracle stream: 45° for the first two samples,
then 0°.  Used to exercise `RPS_check_x` when the robot starts rotated
45° away from the east-bin canonical heading. -/
def cexHeading : ℕ → ℚ := fun i => if i ≤ 1 then 45 else 0

/-! ### Helper lemmas -/

/-- The three-branch wrap-around computation agrees with the shortest-arc
formula on the 360° circle. -/
lemma headingDiff_eq_min (heading h : ℚ) (hh0 : 0 ≤ heading)
    (hh1 : heading < 360) (hc0 : 0 ≤ h) (hc1 : h < 360) :
    headingDiff heading h = min |heading - h| (360 - |heading - h|) := by
  unfold headingDiff
  split_ifs with hb1 hb2
  · rw [abs_of_nonpos (by linarith), abs_of_nonneg (by linarith),
      min_eq_right (by linarith)]
    ring
  · rw [abs_of_nonneg (by linarith), abs_of_nonpos (by linarith),
      min_eq_right (by linarith)]
    ring
  · have he : heading + 360 - (h + 360) = heading - h := by ring
    rw [he]
    have habs : |heading - h| ≤ 180 := abs_le.mpr ⟨by linarith, by linarith⟩
    rw [min_eq_left (by linarith)]

/-- Claim C1: for headings `h1, h2 ∈ [0,360)`, the angular difference
computed by `RPS_correct_heading` — the same expression before the loop
and when recomputed inside the loop, embedded once as `headingDiff` —
equals `min |h1 - h2| (360 - |h1 - h2|)` and lies in `[0, 180]`. -/
theorem heading_difference_is_shortest_arc (h1 h2 : ℚ) (ha : 0 ≤ h1)
    (hb : h1 < 360) (hc : 0 ≤ h2) (hd : h2 < 360) :
    headingDiff h1 h2 = min |h1 - h2| (360 - |h1 - h2|) ∧
      0 ≤ headingDiff h1 h2 ∧ headingDiff h1 h2 ≤ 180 := by
  have hmin := headingDiff_eq_min h1 h2 ha hb hc hd
  refine ⟨hmin, ?_, ?_⟩
  · rw [hmin]
    have h360 : |h1 - h2| ≤ 360 := abs_le.mpr ⟨by linarith, by linarith⟩
    exact le_min (abs_nonneg _) (by linarith)
  · rw [hmin]
    rcases le_or_lt |h1 - h2| 180 with hle | hgt
    · exact le_trans (min_le_left _ _) hle
    · exact le_trans (min_le_right _ _) (by linarith)

/-- Witness for C1 at `h1 = 350`, `h2 = 10`: the wrap-around arc is 20°. -/
theorem heading_difference_is_shortest_arc_inst :
    ((0 : ℚ) ≤ 350 ∧ (350 : ℚ) < 360 ∧ (0 : ℚ) ≤ 10 ∧ (10 : ℚ) < 360) ∧
    (headingDiff 350 10 = min |(350 : ℚ) - 10| (360 - |(350 : ℚ) - 10|) ∧
      0 ≤ headingDiff 350 10 ∧ headingDiff 350 10 ≤ 180) :=
  ⟨⟨by norm_num, by norm_num, by norm_num, by norm_num⟩,
    heading_difference_is_shortest_arc 350 10 (by norm_num) (by norm_num)
      (by norm_num) (by norm_num)⟩

/-- `headingDirection` written as nested conditionals (the source builds
the raw sign first and then inverts it on the `> 180` check). -/
lemma headingDirection_eq (heading h : ℚ) :
    headingDirection heading h =
      if |h - heading| > 180 then (if h < heading then (-1 : ℤ) else 1)
      else (if h < heading then 1 else -1) := by
  unfold headingDirection
  by_cases hlt : h < heading <;> by_cases hbig : |h - heading| > 180 <;>
    simp [hlt, hbig]

/-- Claim C2: on every loop iteration the chosen rotation direction is
the one whose arc length equals the shortest angular difference: when
`headingDirection` picks `1` (counter-clockwise, heading increasing) the
counter-clockwise arc from the current heading `h` to the target equals
the computed difference, and symmetrically for `-1` (clockwise); the
choice is always one of the two.  Since the computed difference is the
shortest arc (C1's helper), the long way around is never chosen. -/
theorem heading_direction_matches_shortest_arc (heading h : ℚ)
    (ha : 0 ≤ heading) (hb : heading < 360) (hc : 0 ≤ h) (hd : h < 360) :
    (headingDirection heading h = 1 →
      ccwArc h heading = headingDiff heading h) ∧
    (headingDirection heading h = -1 →
      cwArc h heading = headingDiff heading h) ∧
    (headingDirection heading h = 1 ∨ headingDirection heading h = -1) := by
  rw [headingDirection_eq]
  by_cases hlt : h < heading
  · by_cases hbig : |h - heading| > 180
    · have hgt : 180 < heading - h := by
        rw [abs_of_neg (by linarith)] at hbig; linarith
      rw [if_pos hbig, if_pos hlt]
      refine ⟨fun hd1 => absurd hd1 (by decide), fun _ => ?_, Or.inr rfl⟩
      unfold cwArc headingDiff
      rw [if_neg (not_le.mpr hlt), if_pos (by linarith),
        abs_of_nonpos (by linarith)]
      ring
    · have hle : heading - h ≤ 180 := by
        rw [abs_of_neg (by linarith)] at hbig; linarith [not_lt.mp hbig]
      rw [if_neg hbig, if_pos hlt]
      refine ⟨fun _ => ?_, fun hd1 => absurd hd1 (by decide), Or.inl rfl⟩
      unfold ccwArc headingDiff
      rw [if_pos (le_of_lt hlt), if_neg (by linarith), if_neg (by linarith)]
      have he : heading + 360 - (h + 360) = heading - h := by ring
      rw [he, abs_of_nonneg (by linarith)]
  · have hge : heading ≤ h := not_lt.mp hlt
    by_cases hbig : |h - heading| > 180
    · have hgt : 180 < h - heading := by
        rw [abs_of_nonneg (by linarith)] at hbig; linarith
      rw [if_pos hbig, if_neg hlt]
      refine ⟨fun _ => ?_, fun hd1 => absurd hd1 (by decide), Or.inl rfl⟩
      unfold ccwArc headingDiff
      rw [if_neg (not_le.mpr (by linarith)), if_neg (by linarith),
        if_pos (by linarith), abs_of_nonneg (by linarith)]
      ring
    · have hle : h - heading ≤ 180 := by
        rw [abs_of_nonneg (by linarith)] at hbig; linarith [not_lt.mp hbig]
      rw [if_neg hbig, if_neg hlt]
      refine ⟨fun hd1 => absurd hd1 (by decide), fun _ => ?_, Or.inr rfl⟩
      unfold cwArc headingDiff
      rw [if_pos hge, if_neg (by linarith), if_neg (by linarith)]
      have he : heading + 360 - (h + 360) = heading - h := by ring
      rw [he, abs_of_nonpos (by linarith)]
      ring

/-- Witness for C2 at target `10`, current heading `350`: direction `1`
(counter-clockwise) is chosen and its arc is the computed difference. -/
theorem heading_direction_matches_shortest_arc_inst :
    ((0 : ℚ) ≤ 10 ∧ (10 : ℚ) < 360 ∧ (0 : ℚ) ≤ 350 ∧ (350 : ℚ) < 360) ∧
    ((headingDirection 10 350 = 1 → ccwArc 350 10 = headingDiff 10 350) ∧
     (headingDirection 10 350 = -1 → cwArc 350 10 = headingDiff 10 350) ∧
     (headingDirection 10 350 = 1 ∨ headingDirection 10 350 = -1)) :=
  ⟨⟨by norm_num, by norm_num, by norm_num, by norm_num⟩,
    heading_direction_matches_shortest_arc 10 350 (by norm_num) (by norm_num)
      (by norm_num) (by norm_num)⟩

/-- Claim C5: if the oracle reports a negative heading when
`RPS_correct_heading` is called (reading 0 of the stream), the call
returns at once with an empty event trace — no `SetPercent` and no
`Stop` is ever issued — and it returns normally (`some`), so the failure
is recoverable for the caller, not fatal. -/
theorem correct_heading_aborts_on_invalid_oracle (heading : ℚ)
    (rps : ℕ → ℚ) (fuel : ℕ) (hneg : rps 0 < 0) :
    RPS_correct_heading heading rps (fuel + 1) = some [] := by
  unfold RPS_correct_heading correctHeadingLoop
  rw [if_neg]
  rintro ⟨h0, -⟩
  exact absurd h0 (not_le.mpr hneg)

/-- Witness for C5: target 90° with the oracle stuck at `-1` issues
nothing. -/
theorem correct_heading_aborts_on_invalid_oracle_inst :
    ((fun _ : ℕ => (-1 : ℚ)) 0 < 0) ∧
      RPS_correct_heading 90 (fun _ => (-1 : ℚ)) 1 = some [] :=
  ⟨by norm_num,
    correct_heading_aborts_on_invalid_oracle 90 (fun _ => (-1 : ℚ)) 0
      (by norm_num)⟩

/-- Claim C9: the heading-correction loop has no iteration or time cap:
with a constant valid oracle heading whose wrap-around difference to the
target exceeds the threshold, the loop never terminates — it exhausts
every fuel bound. -/
theorem correct_heading_unbounded_on_constant_offset (heading h0 : ℚ)
    (hval : 0 ≤ h0) (hfar : RPS_TURN_THRESHOLD < headingDiff heading h0) :
    ∀ fuel, RPS_correct_heading heading (fun _ => h0) fuel = none := by
  have hloop : ∀ fuel i,
      correctHeadingLoop heading (fun _ => h0) fuel i = none := by
    intro fuel
    induction fuel with
    | zero => intro i; rfl
    | succ n ih =>
      intro i
      unfold correctHeadingLoop
      rw [if_pos ⟨hval, hfar⟩, ih (i + 1)]
      rfl
  intro fuel
  exact hloop fuel 0

/-- Witness for C9: target 90°, oracle stuck at a valid 0° (difference
90° > 0.5°); with fuel 3 the loop is still running. -/
theorem correct_heading_unbounded_on_constant_offset_inst :
    ((0 : ℚ) ≤ 0 ∧ RPS_TURN_THRESHOLD < headingDiff 90 0) ∧
      RPS_correct_heading 90 (fun _ => (0 : ℚ)) 3 = none :=
  ⟨⟨le_refl 0, by norm_num [headingDiff, RPS_TURN_THRESHOLD]⟩,
    correct_heading_unbounded_on_constant_offset 90 0 (le_refl 0)
      (by norm_num [headingDiff, RPS_TURN_THRESHOLD]) 3⟩

/-- The busy-wait returns the first polling tick whose averaged count
reaches the target: the returned tick satisfies the condition and every
earlier polled tick does not. -/
lemma pollFirst_spec (target : ℚ) (enc : ℕ → ℕ × ℕ) :
    ∀ fuel i k, pollFirst target enc fuel i = some k →
      target ≤ avgCounts enc k ∧ i ≤ k ∧
        ∀ m, i ≤ m → m < k → avgCounts enc m < target := by
  intro fuel
  induction fuel with
  | zero => intro i k h; cases h
  | succ n ih =>
    intro i k h
    unfold pollFirst at h
    by_cases hc : avgCounts enc i < target
    · rw [if_pos hc] at h
      obtain ⟨hk, hik, hall⟩ := ih (i + 1) k h
      refine ⟨hk, by omega, fun m him hmk => ?_⟩
      rcases eq_or_lt_of_le him with heq | hlt
      · rw [← heq]; exact hc
      · exact hall m (by omega) hmk
    · rw [if_neg hc] at h
      obtain rfl : i = k := by cases h; rfl
      exact ⟨not_lt.mp hc, le_refl i, fun m him hmk => by omega⟩

/-- One busy-wait step: the averaged count at tick `i` is below target,
so polling proceeds to the next tick. -/
lemma pollFirst_step_go (target : ℚ) (enc : ℕ → ℕ × ℕ) (fuel i : ℕ)
    (h : avgCounts enc i < target) :
    pollFirst target enc (fuel + 1) i = pollFirst target enc fuel (i + 1) := by
  conv_lhs => rw [pollFirst]
  rw [if_pos h]

/-- One busy-wait step: the averaged count at tick `i` has reached the
target, so polling returns tick `i`. -/
lemma pollFirst_step_stop (target : ℚ) (enc : ℕ → ℕ × ℕ) (fuel i : ℕ)
    (h : ¬ avgCounts enc i < target) :
    pollFirst target enc (fuel + 1) i = some i := by
  conv_lhs => rw [pollFirst]
  rw [if_neg h]

/-- One heading-correction iteration whose guard holds: a pulse in the
chosen direction is emitted and the loop recurses on the next reading. -/
lemma correctHeadingLoop_go (heading : ℚ) (rps : ℕ → ℚ) (fuel i : ℕ)
    (h : 0 ≤ rps i ∧ RPS_TURN_THRESHOLD < headingDiff heading (rps i)) :
    correctHeadingLoop heading rps (fuel + 1) i =
      (correctHeadingLoop heading rps fuel (i + 1)).map fun rest =>
        (if headingDirection heading (rps i) = 1 then turnPulseCCW
         else turnPulseCW) ++ Ev.sleepE RPS_DELAY_TIME :: rest := by
  conv_lhs => rw [correctHeadingLoop]
  rw [if_pos h]

/-- One heading-correction iteration whose guard fails (oracle invalid
or already within threshold): the loop ends with no further events. -/
lemma correctHeadingLoop_stop (heading : ℚ) (rps : ℕ → ℚ) (fuel i : ℕ)
    (h : ¬ (0 ≤ rps i ∧ RPS_TURN_THRESHOLD < headingDiff heading (rps i))) :
    correctHeadingLoop heading rps (fuel + 1) i = some [] := by
  conv_lhs => rw [correctHeadingLoop]
  rw [if_neg h]

/-- One translational-correction iteration whose guard holds. -/
lemma checkAxisLoop_go (coord power : ℚ) (rps : ℕ → ℚ) (fuel i : ℕ)
    (h : 0 < rps i ∧ RPS_TRANSLATIONAL_THRESHOLD < |rps i - coord|) :
    checkAxisLoop coord power rps (fuel + 1) i =
      (checkAxisLoop coord power rps fuel (i + 1)).map fun rest =>
        (if coord < rps i then
          move_forward_seconds (-power) RPS_TRANSLATIONAL_PULSE_TIME
         else if rps i < coord then
          move_forward_seconds power RPS_TRANSLATIONAL_PULSE_TIME
         else []) ++ Ev.sleepE RPS_DELAY_TIME :: rest := by
  conv_lhs => rw [checkAxisLoop]
  rw [if_pos h]

/-- One translational-correction iteration whose guard fails. -/
lemma checkAxisLoop_stop (coord power : ℚ) (rps : ℕ → ℚ) (fuel i : ℕ)
    (h : ¬ (0 < rps i ∧ RPS_TRANSLATIONAL_THRESHOLD < |rps i - coord|)) :
    checkAxisLoop coord power rps (fuel + 1) i = some [] := by
  conv_lhs => rw [checkAxisLoop]
  rw [if_neg h]

/-- Claim C3: `move_forward_inches` uses `COUNT_PER_INCH * inches` as the
count target, resets both encoders, sets both motors to the given
percent, and issues exactly one `Stop` per motor, at the first polling
tick whose averaged encoder count reaches the target and at no earlier
tick. -/
theorem move_forward_inches_stops_at_first_tick (percent : ℤ) (inches : ℚ)
    (enc : ℕ → ℕ × ℕ) (fuel : ℕ) (t : List Ev) (k : ℕ)
    (h : move_forward_inches percent inches enc fuel = some (t, k)) :
    t = [Ev.resetR, Ev.resetL, Ev.setR (percent : ℚ), Ev.setL (percent : ℚ),
         Ev.stopR, Ev.stopL] ∧
    t.count Ev.stopR = 1 ∧ t.count Ev.stopL = 1 ∧
    COUNT_PER_INCH * inches ≤ avgCounts enc k ∧
    ∀ m < k, avgCounts enc m < COUNT_PER_INCH * inches := by
  unfold move_forward_inches at h
  cases hp : pollFirst (COUNT_PER_INCH * inches) enc fuel 0 with
  | none => rw [hp] at h; cases h
  | some k0 =>
    rw [hp] at h
    simp only [Option.map_some', Option.some.injEq, Prod.mk.injEq] at h
    obtain ⟨ht, hk0⟩ := h
    subst ht
    subst hk0
    obtain ⟨hk, -, hall⟩ := pollFirst_spec _ enc fuel 0 _ hp
    refine ⟨rfl, ?_, ?_, hk, fun m hm => hall m (Nat.zero_le m) hm⟩ <;>
      simp [List.count_cons]

/-- Witness for C3: percent 40, 1 inch, encoders already at 1000 counts:
the stop is issued at tick 0 and the target has been reached there. -/
theorem move_forward_inches_stops_at_first_tick_inst :
    (move_forward_inches 40 1 (fun _ => (1000, 1000)) 1 =
      some ([Ev.resetR, Ev.resetL, Ev.setR ((40 : ℤ) : ℚ),
             Ev.setL ((40 : ℤ) : ℚ), Ev.stopR, Ev.stopL], 0)) ∧
    COUNT_PER_INCH * 1 ≤ avgCounts (fun _ => (1000, 1000)) 0 := by
  have hnot : ¬ avgCounts (fun _ : ℕ => ((1000 : ℕ), (1000 : ℕ))) 0 <
      COUNT_PER_INCH * 1 := by
    norm_num [avgCounts, COUNT_PER_INCH, PI]
  have heq : move_forward_inches 40 1 (fun _ => (1000, 1000)) 1 =
      some ([Ev.resetR, Ev.resetL, Ev.setR ((40 : ℤ) : ℚ),
             Ev.setL ((40 : ℤ) : ℚ), Ev.stopR, Ev.stopL], 0) := by
    unfold move_forward_inches
    rw [show (1 : ℕ) = 0 + 1 from rfl, pollFirst_step_stop _ _ _ _ hnot]
    rfl
  exact ⟨heq,
    (move_forward_inches_stops_at_first_tick 40 1 (fun _ => (1000, 1000)) 1
      _ 0 heq).2.2.2.1⟩

/-- Claim C4: `turn_right_degrees` targets
`COUNT_PER_INCH * ((degrees * PI) / 180) * (ROBOT_WIDTH / 2)` counts and
commands the left (outer) motor at `+percent` while the right
(backward-turning) motor gets `-percent - BACKWARDS_CALIBRATOR`; at
percent 20 the right command is `-20 - BACKWARDS_CALIBRATOR = -112/5`,
which differs from `-20`. -/
theorem turn_right_degrees_commands (percent : ℤ) (degrees : ℚ)
    (enc : ℕ → ℕ × ℕ) (fuel : ℕ) (t : List Ev) (k : ℕ)
    (h : turn_right_degrees percent degrees enc fuel = some (t, k)) :
    t = [Ev.resetR, Ev.resetL,
         Ev.setR (-(percent : ℚ) - BACKWARDS_CALIBRATOR),
         Ev.setL (percent : ℚ), Ev.stopR, Ev.stopL] ∧
    turnExpectedCounts degrees =
      COUNT_PER_INCH * ((degrees * PI) / 180) * (ROBOT_WIDTH / 2) ∧
    turnExpectedCounts degrees ≤ avgCounts enc k ∧
    (∀ m < k, avgCounts enc m < turnExpectedCounts degrees) ∧
    (-(20 : ℚ) - BACKWARDS_CALIBRATOR = -112 / 5 ∧
      (-112 / 5 : ℚ) ≠ -20) := by
  unfold turn_right_degrees at h
  cases hp : pollFirst (turnExpectedCounts degrees) enc fuel 0 with
  | none => rw [hp] at h; cases h
  | some k0 =>
    rw [hp] at h
    simp only [Option.map_some', Option.some.injEq, Prod.mk.injEq] at h
    obtain ⟨ht, hk0⟩ := h
    subst ht
    subst hk0
    obtain ⟨hk, -, hall⟩ := pollFirst_spec _ enc fuel 0 _ hp
    exact ⟨rfl, rfl, hk, fun m hm => hall m (Nat.zero_le m) hm,
      by norm_num [BACKWARDS_CALIBRATOR], by norm_num⟩

/-- Witness for C4: a 90° right turn at percent 20 with encoders already
at 10000 counts: left motor `+20`, right motor `-112/5`. -/
theorem turn_right_degrees_commands_inst :
    (turn_right_degrees 20 90 (fun _ => (10000, 10000)) 1 =
      some ([Ev.resetR, Ev.resetL,
             Ev.setR (-((20 : ℤ) : ℚ) - BACKWARDS_CALIBRATOR),
             Ev.setL ((20 : ℤ) : ℚ), Ev.stopR, Ev.stopL], 0)) ∧
    (-(20 : ℚ) - BACKWARDS_CALIBRATOR = -112 / 5 ∧ (-112 / 5 : ℚ) ≠ -20) := by
  have hnot : ¬ avgCounts (fun _ : ℕ => ((10000 : ℕ), (10000 : ℕ))) 0 <
      turnExpectedCounts 90 := by
    norm_num [avgCounts, turnExpectedCounts, COUNT_PER_INCH, PI, ROBOT_WIDTH]
  have heq : turn_right_degrees 20 90 (fun _ => (10000, 10000)) 1 =
      some ([Ev.resetR, Ev.resetL,
             Ev.setR (-((20 : ℤ) : ℚ) - BACKWARDS_CALIBRATOR),
             Ev.setL ((20 : ℤ) : ℚ), Ev.stopR, Ev.stopL], 0) := by
    unfold turn_right_degrees
    rw [show (1 : ℕ) = 0 + 1 from rfl, pollFirst_step_stop _ _ _ _ hnot]
    rfl
  exact ⟨heq,
    (turn_right_degrees_commands 20 90 (fun _ => (10000, 10000)) 1
      _ 0 heq).2.2.2.2⟩

/-- Counterexample to claim C8: `move_forward_seconds` does not set the
motors to exactly the passed power for every power — at power `-20` it
subtracts `BACKWARDS_CALIBRATOR` and commands `-112/5` instead. -/
theorem move_forward_seconds_modifies_negative_power :
    move_forward_seconds (-20) 1 ≠
      [Ev.setR (-20), Ev.setL (-20), Ev.sleepE 1, Ev.stopR, Ev.stopL] ∧
    move_forward_seconds (-20) 1 =
      [Ev.setR (-112 / 5), Ev.setL (-112 / 5), Ev.sleepE 1,
       Ev.stopR, Ev.stopL] := by
  have heq : move_forward_seconds (-20) 1 =
      [Ev.setR (-112 / 5), Ev.setL (-112 / 5), Ev.sleepE 1,
       Ev.stopR, Ev.stopL] := by
    unfold move_forward_seconds
    rw [if_pos (by norm_num : (-20 : ℚ) < 0)]
    norm_num [BACKWARDS_CALIBRATOR]
  refine ⟨?_, heq⟩
  rw [heq]
  simp only [ne_eq, List.cons.injEq, Ev.setR.injEq]
  intro hcon
  have h5 : (-112 / 5 : ℚ) = -20 := hcon.1
  norm_num at h5

/-- Claim C8 as amended: `move_forward_seconds` sets both motors to the
passed power when it is nonnegative, and to
`power - BACKWARDS_CALIBRATOR` when it is negative; in both cases it
then sleeps the duration and stops both motors, and no range check is
applied to the power. -/
theorem move_forward_seconds_trace (p s : ℚ) :
    (0 ≤ p → move_forward_seconds p s =
      [Ev.setR p, Ev.setL p, Ev.sleepE s, Ev.stopR, Ev.stopL]) ∧
    (p < 0 → move_forward_seconds p s =
      [Ev.setR (p - BACKWARDS_CALIBRATOR), Ev.setL (p - BACKWARDS_CALIBRATOR),
       Ev.sleepE s, Ev.stopR, Ev.stopL]) := by
  unfold move_forward_seconds
  constructor <;> intro hp
  · rw [if_neg (not_lt.mpr hp)]
  · rw [if_pos hp]

/-- Witness for C8's amended claim at power 20 and at power `-20`. -/
theorem move_forward_seconds_trace_inst :
    ((0 : ℚ) ≤ 20 ∧ move_forward_seconds 20 1 =
      [Ev.setR 20, Ev.setL 20, Ev.sleepE 1, Ev.stopR, Ev.stopL]) ∧
    ((-20 : ℚ) < 0 ∧ move_forward_seconds (-20) 1 =
      [Ev.setR ((-20 : ℚ) - BACKWARDS_CALIBRATOR),
       Ev.setL ((-20 : ℚ) - BACKWARDS_CALIBRATOR),
       Ev.sleepE 1, Ev.stopR, Ev.stopL]) :=
  ⟨⟨by norm_num, (move_forward_seconds_trace 20 1).1 (by norm_num)⟩,
    ⟨by norm_num, (move_forward_seconds_trace (-20) 1).2 (by norm_num)⟩⟩

/-- Counterexample to claim C6: `RPS_check_x` called with the target
equal to the current X reading (distance `0 ≤` threshold) still issues
motor pulses, because it first snaps the heading to the canonical bin
heading: starting at 45° it pulses the motors (a `SetPercent` appears in
the trace) even though the translational loop itself never runs. -/
theorem check_x_within_threshold_still_pulses :
    |(fun _ : ℕ => (5 : ℚ)) 0 - 5| ≤ RPS_TRANSLATIONAL_THRESHOLD ∧
    ∃ t, RPS_check_x 5 cexHeading (fun _ => 5) 2 = some t ∧
      Ev.setL RPS_TURN_PULSE_PERCENT ∈ t := by
  have hL1 : correctHeadingLoop 0 (fun i => cexHeading (i + 1)) 2 0 =
      some (turnPulseCW ++ [Ev.sleepE RPS_DELAY_TIME]) := by
    rw [show (2 : ℕ) = 1 + 1 from rfl]
    rw [correctHeadingLoop_go _ _ _ _
      ⟨by norm_num [cexHeading], by
        norm_num [cexHeading, headingDiff, RPS_TURN_THRESHOLD]⟩]
    rw [show (1 : ℕ) = 0 + 1 from rfl]
    rw [correctHeadingLoop_stop _ _ _ _ (by
      rintro ⟨-, hb⟩
      norm_num [cexHeading, headingDiff, RPS_TURN_THRESHOLD] at hb)]
    simp only [Option.map_some', Option.some.injEq]
    norm_num [headingDirection, cexHeading]
  have hX : checkAxisLoop 5 RPS_TRANSLATIONAL_PULSE_PERCENT
      (fun _ => (5 : ℚ)) 2 0 = some [] := by
    rw [show (2 : ℕ) = 1 + 1 from rfl]
    exact checkAxisLoop_stop _ _ _ _ _ (by
      rintro ⟨-, hb⟩
      norm_num [RPS_TRANSLATIONAL_THRESHOLD] at hb)
  have hcall : RPS_check_x 5 cexHeading (fun _ => 5) 2 =
      some (turnPulseCW ++ [Ev.sleepE RPS_DELAY_TIME]) := by
    unfold RPS_check_x RPS_correct_heading
    rw [if_pos (by norm_num [cexHeading] : (0 : ℚ) ≤ cexHeading 0)]
    rw [if_pos (Or.inl (by norm_num [cexHeading] : cexHeading 0 ≤ 90)),
      if_pos (Or.inl (by norm_num [cexHeading] : cexHeading 0 ≤ 90))]
    rw [hL1]
    simp only [Option.some_bind]
    rw [hX]
    simp
  refine ⟨by norm_num [RPS_TRANSLATIONAL_THRESHOLD],
    ⟨turnPulseCW ++ [Ev.sleepE RPS_DELAY_TIME], hcall, ?_⟩⟩
  simp [turnPulseCW]

/-- Claim C6 as amended: a `correct_axis` call whose target is within
`RPS_TRANSLATIONAL_THRESHOLD` of the current axis reading issues zero
translational pulses — the translational loop exits before its first
pulse on either axis.  Pulses may still be issued by the embedded
heading snap; if additionally the heading read at the snap is already
within `RPS_TURN_THRESHOLD` of the canonical bin heading, the whole call
returns with an empty command trace. -/
theorem correct_axis_translational_idempotent :
    (∀ coord power : ℚ, ∀ rps : ℕ → ℚ, ∀ fuel i : ℕ,
      |rps i - coord| ≤ RPS_TRANSLATIONAL_THRESHOLD →
      checkAxisLoop coord power rps (fuel + 1) i = some []) ∧
    (∀ x_coord : ℚ, ∀ rpsH rpsX : ℕ → ℚ, ∀ fuel : ℕ,
      0 ≤ rpsH 0 →
      headingDiff (if rpsH 0 ≤ 90 ∨ 270 ≤ rpsH 0 then 0 else 180) (rpsH 1) ≤
        RPS_TURN_THRESHOLD →
      |rpsX 0 - x_coord| ≤ RPS_TRANSLATIONAL_THRESHOLD →
      RPS_check_x x_coord rpsH rpsX (fuel + 1) = some []) ∧
    (∀ y_coord : ℚ, ∀ rpsH rpsY : ℕ → ℚ, ∀ fuel : ℕ,
      0 ≤ rpsH 0 →
      headingDiff (if 0 ≤ rpsH 0 ∧ rpsH 0 ≤ 180 then 90 else 270) (rpsH 1) ≤
        RPS_TURN_THRESHOLD →
      |rpsY 0 - y_coord| ≤ RPS_TRANSLATIONAL_THRESHOLD →
      RPS_check_y y_coord rpsH rpsY (fuel + 1) = some []) := by
  have haxis : ∀ coord power : ℚ, ∀ rps : ℕ → ℚ, ∀ fuel i : ℕ,
      |rps i - coord| ≤ RPS_TRANSLATIONAL_THRESHOLD →
      checkAxisLoop coord power rps (fuel + 1) i = some [] := by
    intro coord power rps fuel i hle
    exact checkAxisLoop_stop _ _ _ _ _ (by
      rintro ⟨-, hb⟩
      exact absurd hb (not_lt.mpr hle))
  refine ⟨haxis, ?_, ?_⟩
  · intro x_coord rpsH rpsX fuel h0 hhead hx
    unfold RPS_check_x RPS_correct_heading
    rw [if_pos h0]
    rw [correctHeadingLoop_stop _ _ _ _ (by
      rintro ⟨-, hb⟩
      exact absurd hb (not_lt.mpr hhead))]
    simp only [Option.some_bind]
    rw [haxis _ _ _ fuel 0 hx]
    rfl
  · intro y_coord rpsH rpsY fuel h0 hhead hy
    unfold RPS_check_y RPS_correct_heading
    rw [if_pos h0]
    rw [correctHeadingLoop_stop _ _ _ _ (by
      rintro ⟨-, hb⟩
      exact absurd hb (not_lt.mpr hhead))]
    simp only [Option.some_bind]
    rw [haxis _ _ _ fuel 0 hy]
    rfl

/-- Witness for C6's amended claim: oracle already at heading 0 (east
bin) and X already at the target 3, and at heading 90 (north bin) with Y
at the target 4 — both calls return with an empty command trace. -/
theorem correct_axis_translational_idempotent_inst :
    (|(fun _ : ℕ => (3 : ℚ)) 0 - 3| ≤ RPS_TRANSLATIONAL_THRESHOLD ∧
      RPS_check_x 3 (fun _ => 0) (fun _ => 3) 1 = some []) ∧
    (|(fun _ : ℕ => (4 : ℚ)) 0 - 4| ≤ RPS_TRANSLATIONAL_THRESHOLD ∧
      RPS_check_y 4 (fun _ => 90) (fun _ => 4) 1 = some []) := by
  constructor
  · refine ⟨by norm_num [RPS_TRANSLATIONAL_THRESHOLD], ?_⟩
    exact correct_axis_translational_idempotent.2.1 3 (fun _ => 0)
      (fun _ => 3) 0 (by norm_num)
      (by norm_num [headingDiff, RPS_TURN_THRESHOLD])
      (by norm_num [RPS_TRANSLATIONAL_THRESHOLD])
  · refine ⟨by norm_num [RPS_TRANSLATIONAL_THRESHOLD], ?_⟩
    exact correct_axis_translational_idempotent.2.2 4 (fun _ => 90)
      (fun _ => 4) 0 (by norm_num)
      (by norm_num [headingDiff, RPS_TURN_THRESHOLD])
      (by norm_num [RPS_TRANSLATIONAL_THRESHOLD])

/-- Counterexample to claim C7: with an axis reading of exactly 0 and an
error of 5 (far above the threshold), the translational loop exits
immediately — the code's guard is `RPS.X() > 0`, strict, so a reading of
exactly 0 is treated as unavailable, where the claim says correction
continues. -/
theorem axis_zero_reading_stops_loop :
    ((0 : ℚ) ≥ 0 ∧ RPS_TRANSLATIONAL_THRESHOLD < |(0 : ℚ) - 5|) ∧
    checkAxisLoop 5 RPS_TRANSLATIONAL_PULSE_PERCENT (fun _ => 0) 9 0 =
      some [] := by
  refine ⟨⟨le_refl 0, by norm_num [RPS_TRANSLATIONAL_THRESHOLD]⟩, ?_⟩
  rw [show (9 : ℕ) = 8 + 1 from rfl]
  exact checkAxisLoop_stop _ _ _ _ _ (by
    rintro ⟨hpos, -⟩
    exact absurd hpos (lt_irrefl 0))

/-- Claim C7 as amended: the translational loop takes another iteration
exactly when the axis reading is strictly positive and the absolute
error exceeds the threshold — equivalently, it exits immediately (empty
remaining trace) iff that strict guard fails — and in particular a
reading of exactly 0 stops the correction. -/
theorem check_axis_loop_guard_strict (coord power : ℚ) (rps : ℕ → ℚ)
    (fuel i : ℕ) :
    (checkAxisLoop coord power rps (fuel + 1) i = some [] ↔
      ¬ (0 < rps i ∧ RPS_TRANSLATIONAL_THRESHOLD < |rps i - coord|)) ∧
    (rps i = 0 → checkAxisLoop coord power rps (fuel + 1) i = some []) := by
  constructor
  · constructor
    · intro hsome
      by_contra hguard
      rw [checkAxisLoop_go _ _ _ _ _ hguard] at hsome
      cases hrec : checkAxisLoop coord power rps fuel (i + 1) with
      | none => rw [hrec] at hsome; cases hsome
      | some rest =>
        rw [hrec] at hsome
        simp only [Option.map_some', Option.some.injEq] at hsome
        simp at hsome
    · intro hguard
      exact checkAxisLoop_stop _ _ _ _ _ hguard
  · intro h0
    apply checkAxisLoop_stop
    rintro ⟨hpos, -⟩
    rw [h0] at hpos
    exact lt_irrefl 0 hpos

/-- Witness for C7's amended claim: reading exactly 0 with target 5
exits the loop at once. -/
theorem check_axis_loop_guard_strict_inst :
    ((fun _ : ℕ => (0 : ℚ)) 0 = 0) ∧
      checkAxisLoop 5 20 (fun _ => (0 : ℚ)) (0 + 1) 0 = some [] :=
  ⟨rfl, (check_axis_loop_guard_strict 5 20 (fun _ => 0) 0 0).2 rfl⟩

/-- The stop discipline is preserved by concatenating two traces that
each start and end with both motors stopped. -/
lemma disciplineAux_append : ∀ (s t : List Ev) (l r : ℚ),
    disciplineAux l r s = true → disciplineAux 0 0 t = true →
    disciplineAux l r (s ++ t) = true := by
  intro s
  induction s with
  | nil =>
    intro t l r hs ht
    simp only [disciplineAux, Bool.and_eq_true, decide_eq_true_eq] at hs
    obtain ⟨hl, hr⟩ := hs
    subst hl
    subst hr
    simpa using ht
  | cons e es ih =>
    intro t l r hs ht
    cases e with
    | setL p =>
      simp only [List.cons_append, disciplineAux, Bool.and_eq_true] at hs ⊢
      exact ⟨hs.1, ih t _ _ hs.2 ht⟩
    | setR p =>
      simp only [List.cons_append, disciplineAux, Bool.and_eq_true] at hs ⊢
      exact ⟨hs.1, ih t _ _ hs.2 ht⟩
    | stopL =>
      simp only [List.cons_append, disciplineAux] at hs ⊢
      exact ih t _ _ hs ht
    | stopR =>
      simp only [List.cons_append, disciplineAux] at hs ⊢
      exact ih t _ _ hs ht
    | resetL =>
      simp only [List.cons_append, disciplineAux] at hs ⊢
      exact ih t _ _ hs ht
    | resetR =>
      simp only [List.cons_append, disciplineAux] at hs ⊢
      exact ih t _ _ hs ht
    | sleepE d =>
      simp only [List.cons_append, disciplineAux] at hs ⊢
      exact ih t _ _ hs ht

/-- The counter-clockwise heading pulse respects the stop discipline. -/
lemma stopDiscipline_turnPulseCCW : stopDiscipline turnPulseCCW = true := by
  simp [stopDiscipline, turnPulseCCW, disciplineAux]

/-- The clockwise heading pulse respects the stop discipline. -/
lemma stopDiscipline_turnPulseCW : stopDiscipline turnPulseCW = true := by
  simp [stopDiscipline, turnPulseCW, disciplineAux]

/-- Every timed move (and hence every translational pulse) respects the
stop discipline, whatever the power. -/
lemma stopDiscipline_move_forward_seconds (percent seconds : ℚ) :
    stopDiscipline (move_forward_seconds percent seconds) = true := by
  simp [stopDiscipline, move_forward_seconds, disciplineAux]

/-- The fixed reset/set/stop trace of the encoder-counted moves respects
the stop discipline, whatever the two powers. -/
lemma stopDiscipline_countedMove (a b : ℚ) :
    stopDiscipline [Ev.resetR, Ev.resetL, Ev.setR a, Ev.setL b,
      Ev.stopR, Ev.stopL] = true := by
  simp [stopDiscipline, disciplineAux]

/-- Every terminating run of the heading-correction loop respects the
stop discipline. -/
lemma correctHeadingLoop_discipline (heading : ℚ) (rps : ℕ → ℚ) :
    ∀ fuel i t, correctHeadingLoop heading rps fuel i = some t →
      stopDiscipline t = true := by
  intro fuel
  induction fuel with
  | zero => intro i t h; cases h
  | succ n ih =>
    intro i t h
    by_cases hg : 0 ≤ rps i ∧ RPS_TURN_THRESHOLD < headingDiff heading (rps i)
    · rw [correctHeadingLoop_go _ _ _ _ hg] at h
      cases hrec : correctHeadingLoop heading rps n (i + 1) with
      | none => rw [hrec] at h; cases h
      | some rest =>
        rw [hrec] at h
        simp only [Option.map_some', Option.some.injEq] at h
        subst h
        have hrest := ih (i + 1) rest hrec
        have hpulse : stopDiscipline
            (if headingDirection heading (rps i) = 1 then turnPulseCCW
             else turnPulseCW) = true := by
          split_ifs
          · exact stopDiscipline_turnPulseCCW
          · exact stopDiscipline_turnPulseCW
        unfold stopDiscipline
        apply disciplineAux_append
        · exact hpulse
        · simp only [disciplineAux]
          exact hrest
    · rw [correctHeadingLoop_stop _ _ _ _ hg] at h
      simp only [Option.some.injEq] at h
      subst h
      simp [stopDiscipline, disciplineAux]

/-- Every terminating run of the translational-correction loop respects
the stop discipline. -/
lemma checkAxisLoop_discipline (coord power : ℚ) (rps : ℕ → ℚ) :
    ∀ fuel i t, checkAxisLoop coord power rps fuel i = some t →
      stopDiscipline t = true := by
  intro fuel
  induction fuel with
  | zero => intro i t h; cases h
  | succ n ih =>
    intro i t h
    by_cases hg : 0 < rps i ∧ RPS_TRANSLATIONAL_THRESHOLD < |rps i - coord|
    · rw [checkAxisLoop_go _ _ _ _ _ hg] at h
      cases hrec : checkAxisLoop coord power rps n (i + 1) with
      | none => rw [hrec] at h; cases h
      | some rest =>
        rw [hrec] at h
        simp only [Option.map_some', Option.some.injEq] at h
        subst h
        have hrest := ih (i + 1) rest hrec
        have hpulse : stopDiscipline
            (if coord < rps i then
              move_forward_seconds (-power) RPS_TRANSLATIONAL_PULSE_TIME
             else if rps i < coord then
              move_forward_seconds power RPS_TRANSLATIONAL_PULSE_TIME
             else []) = true := by
          split_ifs
          · exact stopDiscipline_move_forward_seconds _ _
          · exact stopDiscipline_move_forward_seconds _ _
          · simp [stopDiscipline, disciplineAux]
        unfold stopDiscipline
        apply disciplineAux_append
        · exact hpulse
        · simp only [disciplineAux]
          exact hrest
    · rw [checkAxisLoop_stop _ _ _ _ _ hg] at h
      simp only [Option.some.injEq] at h
      subst h
      simp [stopDiscipline, disciplineAux]

/-- Claim C10: at most one motion command is live at a time.  For every
terminating run of each core operation, the issued event trace satisfies
the stop discipline: starting from stopped motors, each motor is stopped
at the moment any new `SetPercent` reaches it, and the operation returns
with both motors stopped. -/
theorem operations_one_live_motion_command :
    (∀ percent inches enc fuel t k,
      move_forward_inches percent inches enc fuel = some (t, k) →
      stopDiscipline t = true) ∧
    (∀ percent degrees enc fuel t k,
      turn_right_degrees percent degrees enc fuel = some (t, k) →
      stopDiscipline t = true) ∧
    (∀ percent degrees enc fuel t k,
      turn_left_degrees percent degrees enc fuel = some (t, k) →
      stopDiscipline t = true) ∧
    (∀ percent seconds,
      stopDiscipline (move_forward_seconds percent seconds) = true) ∧
    (∀ heading rps fuel t,
      RPS_correct_heading heading rps fuel = some t →
      stopDiscipline t = true) ∧
    (∀ x rpsH rpsX fuel t,
      RPS_check_x x rpsH rpsX fuel = some t → stopDiscipline t = true) ∧
    (∀ y rpsH rpsY fuel t,
      RPS_check_y y rpsH rpsY fuel = some t → stopDiscipline t = true) := by
  refine ⟨?_, ?_, ?_, ?_, ?_, ?_, ?_⟩
  · intro percent inches enc fuel t k h
    unfold move_forward_inches at h
    cases hp : pollFirst (COUNT_PER_INCH * inches) enc fuel 0 with
    | none => rw [hp] at h; cases h
    | some k0 =>
      rw [hp] at h
      simp only [Option.map_some', Option.some.injEq, Prod.mk.injEq] at h
      obtain ⟨ht, -⟩ := h
      subst ht
      exact stopDiscipline_countedMove _ _
  · intro percent degrees enc fuel t k h
    unfold turn_right_degrees at h
    cases hp : pollFirst (turnExpectedCounts degrees) enc fuel 0 with
    | none => rw [hp] at h; cases h
    | some k0 =>
      rw [hp] at h
      simp only [Option.map_some', Option.some.injEq, Prod.mk.injEq] at h
      obtain ⟨ht, -⟩ := h
      subst ht
      exact stopDiscipline_countedMove _ _
  · intro percent degrees enc fuel t k h
    unfold turn_left_degrees at h
    cases hp : pollFirst (turnExpectedCounts degrees) enc fuel 0 with
    | none => rw [hp] at h; cases h
    | some k0 =>
      rw [hp] at h
      simp only [Option.map_some', Option.some.injEq, Prod.mk.injEq] at h
      obtain ⟨ht, -⟩ := h
      subst ht
      exact stopDiscipline_countedMove _ _
  · exact stopDiscipline_move_forward_seconds
  · intro heading rps fuel t h
    exact correctHeadingLoop_discipline heading rps fuel 0 t h
  · intro x rpsH rpsX fuel t h
    unfold RPS_check_x at h
    by_cases h0 : 0 ≤ rpsH 0
    · rw [if_pos h0] at h
      cases hH : RPS_correct_heading
          (if rpsH 0 ≤ 90 ∨ 270 ≤ rpsH 0 then 0 else 180)
          (fun i => rpsH (i + 1)) fuel with
      | none => rw [hH] at h; cases h
      | some hE =>
        rw [hH] at h
        simp only [Option.some_bind] at h
        cases hX : checkAxisLoop x
            (if rpsH 0 ≤ 90 ∨ 270 ≤ rpsH 0 then RPS_TRANSLATIONAL_PULSE_PERCENT
             else -RPS_TRANSLATIONAL_PULSE_PERCENT) rpsX fuel 0 with
        | none => rw [hX] at h; cases h
        | some xE =>
          rw [hX] at h
          simp only [Option.map_some', Option.some.injEq] at h
          subst h
          exact disciplineAux_append hE xE 0 0
            (correctHeadingLoop_discipline _ _ fuel 0 hE hH)
            (checkAxisLoop_discipline _ _ _ fuel 0 xE hX)
    · rw [if_neg h0] at h
      simp only [Option.some.injEq] at h
      subst h
      simp [stopDiscipline, disciplineAux]
  · intro y rpsH rpsY fuel t h
    unfold RPS_check_y at h
    by_cases h0 : 0 ≤ rpsH 0
    · rw [if_pos h0] at h
      cases hH : RPS_correct_heading
          (if 0 ≤ rpsH 0 ∧ rpsH 0 ≤ 180 then 90 else 270)
          (fun i => rpsH (i + 1)) fuel with
      | none => rw [hH] at h; cases h
      | some hE =>
        rw [hH] at h
        simp only [Option.some_bind] at h
        cases hY : checkAxisLoop y
            (if 0 ≤ rpsH 0 ∧ rpsH 0 ≤ 180 then RPS_TRANSLATIONAL_PULSE_PERCENT
             else -RPS_TRANSLATIONAL_PULSE_PERCENT) rpsY fuel 0 with
        | none => rw [hY] at h; cases h
        | some yE =>
          rw [hY] at h
          simp only [Option.map_some', Option.some.injEq] at h
          subst h
          exact disciplineAux_append hE yE 0 0
            (correctHeadingLoop_discipline _ _ fuel 0 hE hH)
            (checkAxisLoop_discipline _ _ _ fuel 0 yE hY)
    · rw [if_neg h0] at h
      simp only [Option.some.injEq] at h
      subst h
      simp [stopDiscipline, disciplineAux]

/-- Witness for C10: a converged heading correction (target 90°, oracle
at 90°) terminates with the empty trace, which satisfies the stop
discipline. -/
theorem operations_one_live_motion_command_inst :
    RPS_correct_heading 90 (fun _ => (90 : ℚ)) 1 = some [] ∧
      stopDiscipline [] = true := by
  have h : RPS_correct_heading 90 (fun _ => (90 : ℚ)) 1 = some [] := by
    unfold RPS_correct_heading
    rw [show (1 : ℕ) = 0 + 1 from rfl]
    exact correctHeadingLoop_stop _ _ _ _ (by
      rintro ⟨-, hb⟩
      norm_num [headingDiff, RPS_TURN_THRESHOLD] at hb)
  exact ⟨h,
    operations_one_live_motion_command.2.2.2.2.1 90 (fun _ => 90) 1 [] h⟩

end FehRobot
